import Mathlib

/-!
Verification of the change-detection core of the `alas` incremental bundler:
the file-system cache with dependency traps (`src/file_system/cache.js`) and
the graph-snapshot diff algorithms (`src/src/cyclic-dependency-graph/diff.js`).

JavaScript objects used as string-keyed maps are embedded as association
lists in insertion order (JS preserves insertion order for string keys, and
`Set` preserves insertion order), so iteration (`for ... in`, `forEach`,
`Set` iteration) is list traversal.  Asynchronous methods are split into a
synchronous start phase and a completion phase that receives the settled
outcome of the underlying I/O promise; a thrown exception is modelled by
returning `none`.
-/

/-- Lookup in an insertion-ordered association list (JS object property read). -/
def lookupA {κ α : Type} [DecidableEq κ] : List (κ × α) → κ → Option α
  | [], _ => none
  | (k1, v) :: rest, k => if k1 = k then some v else lookupA rest k

/-- Write to an insertion-ordered association list (JS object property write):
overwrites the first occurrence in place, or appends a fresh key at the end. -/
def setA {κ α : Type} [DecidableEq κ] : List (κ × α) → κ → α → List (κ × α)
  | [], k, v => [(k, v)]
  | (k1, v1) :: rest, k, v =>
    if k1 = k then (k, v) :: rest else (k1, v1) :: setA rest k v

theorem lookupA_setA_self {κ α : Type} [DecidableEq κ] (m : List (κ × α)) (k : κ) (v : α) :
    lookupA (setA m k v) k = some v := by
  induction m with
  | nil => simp [setA, lookupA]
  | cons hd tl ih =>
    obtain ⟨k1, v1⟩ := hd
    by_cases h : k1 = k
    · simp [setA, h, lookupA]
    · simp [setA, h, lookupA, ih]

theorem lookupA_setA_ne {κ α : Type} [DecidableEq κ] (m : List (κ × α)) (k k1 : κ) (v : α)
    (h : k1 ≠ k) : lookupA (setA m k v) k1 = lookupA m k1 := by
  have hkk1 : ¬ (k = k1) := fun h2 => h h2.symm
  induction m with
  | nil => simp [setA, lookupA, hkk1]
  | cons hd tl ih =>
    obtain ⟨k2, v2⟩ := hd
    by_cases h2 : k2 = k
    · have hk2k1 : ¬ (k2 = k1) := by rw [h2]; exact hkk1
      simp [setA, h2, lookupA, hkk1, hk2k1]
    · by_cases h3 : k2 = k1
      · subst h3
        simp [setA, h, lookupA]
      · simp [setA, h2, lookupA, h3, ih]

theorem lookupA_eq_none_iff {κ α : Type} [DecidableEq κ] (m : List (κ × α)) (k : κ) :
    lookupA m k = none ↔ k ∉ m.map Prod.fst := by
  induction m with
  | nil => simp [lookupA]
  | cons hd tl ih =>
    obtain ⟨k1, v1⟩ := hd
    by_cases h : k1 = k
    · subst h
      simp [lookupA]
    · have hne : ¬ (k = k1) := fun h2 => h h2.symm
      simp [lookupA, h, ih, hne]

theorem lookupA_mem {κ α : Type} [DecidableEq κ] (m : List (κ × α)) (k : κ) (v : α)
    (h : lookupA m k = some v) : (k, v) ∈ m := by
  induction m with
  | nil => simp [lookupA] at h
  | cons hd tl ih =>
    obtain ⟨k1, v1⟩ := hd
    by_cases h1 : k1 = k
    · subst h1
      simp [lookupA] at h
      simp [h]
    · simp [lookupA, h1] at h
      exact List.mem_cons_of_mem _ (ih h)

theorem mem_lookupA {κ α : Type} [DecidableEq κ] (m : List (κ × α)) (k : κ) (v : α)
    (nd : (m.map Prod.fst).Nodup) (h : (k, v) ∈ m) : lookupA m k = some v := by
  induction m with
  | nil => simp at h
  | cons hd tl ih =>
    obtain ⟨k1, v1⟩ := hd
    simp only [List.map_cons, List.nodup_cons] at nd
    rcases List.mem_cons.mp h with h1 | h1
    · rw [Prod.mk.injEq] at h1
      obtain ⟨hk, hv⟩ := h1
      subst hk
      subst hv
      simp [lookupA]
    · have hk1 : ¬ (k1 = k) := by
        intro he
        subst he
        exact nd.1 (List.mem_map_of_mem Prod.fst h1)
      simp only [lookupA, if_neg hk1]
      exact ih nd.2 h1

/-! ## Graph snapshot diffs (`src/src/cyclic-dependency-graph/diff.js`)

Snapshots are immutable key-to-value maps; values are the JS values stored in
the map, embedded as a small inductive with JS truthiness and the structural
(deep value) equality used by immutable.js's `is`. -/

/-- A JS value stored in a snapshot map. `vpair` represents composite
(structurally compared) data. -/
inductive Value : Type
  | vnull
  | vbool (b : Bool)
  | vnum (n : Int)
  | vstr (s : String)
  | vpair (a b : Value)
deriving DecidableEq

/-- JS truthiness of a stored value (`undefined` is modelled by an absent key). -/
def Value.truthy : Value → Bool
  | Value.vnull => false
  | Value.vbool b => b
  | Value.vnum n => n != 0
  | Value.vstr s => s != ""
  | Value.vpair _ _ => true

/-- immutable.js `is`: deep structural value equality, not reference equality. -/
def immutableIs (a b : Value) : Bool := a == b

/-- A snapshot: an insertion-ordered key-to-value map. -/
abbrev Snapshot : Type := List (String × Value)

/-- `Diff = Record({from: null, to: null})`. -/
structure Diff where
  «from» : Snapshot
  «to» : Snapshot
deriving DecidableEq

/-- `mergeDiffs(diff1, diff2)`. -/
def mergeDiffs (d1 d2 : Diff) : Diff :=
  { «from» := d1.«from», «to» := d2.«to» }

/-- `snapshot.has(key)`. -/
def snapshotHas (m : Snapshot) (k : String) : Bool :=
  (lookupA m k).isSome

/-- `getNewNodesFromDiff(diff)`. -/
def getNewNodesFromDiff (d : Diff) : List String :=
  ((d.«to».filter fun kv => ! snapshotHas d.«from» kv.1).map Prod.fst)

/-- `getPrunedNodesFromDiff(diff)`. -/
def getPrunedNodesFromDiff (d : Diff) : List String :=
  ((d.«from».filter fun kv => ! snapshotHas d.«to» kv.1).map Prod.fst)

/-- `getChangedNodes(diff)`: note the truthiness test `if (fromValue && ...)`
on `from.get(key)`. -/
def getChangedNodes (d : Diff) : List String :=
  ((d.«to».filter fun kv =>
    match lookupA d.«from» kv.1 with
    | some v => v.truthy && ! immutableIs kv.2 v
    | none => false).map Prod.fst)

theorem snapshotHas_eq_false {m : Snapshot} {k : String} (h : snapshotHas m k = false) :
    k ∉ m.map Prod.fst := by
  rw [← lookupA_eq_none_iff]
  unfold snapshotHas at h
  cases hc : lookupA m k with
  | none => rfl
  | some v => rw [hc] at h; simp at h

theorem mem_keys_of_mem_filter_map {p : String × Value → Bool} {l : List (String × Value)}
    {k : String} (h : k ∈ (l.filter p).map Prod.fst) : k ∈ l.map Prod.fst := by
  obtain ⟨kv, hkv, rfl⟩ := List.mem_map.mp h
  exact List.mem_map_of_mem Prod.fst (List.mem_of_mem_filter hkv)

/-- Claim C8 as stated is false: a key present in both snapshots with a falsy
value in `from` (here the number 0) and a different value in `to` is not
reported by `getChangedNodes`. -/
theorem getChangedNodes_skips_falsy :
    getChangedNodes { «from» := [("a", Value.vnum 0)], «to» := [("a", Value.vnum 1)] } = []
    ∧ lookupA ([("a", Value.vnum 0)] : Snapshot) "a" = some (Value.vnum 0)
    ∧ lookupA ([("a", Value.vnum 1)] : Snapshot) "a" = some (Value.vnum 1)
    ∧ Value.vnum 0 ≠ Value.vnum 1 := by
  refine ⟨by rfl, by rfl, by rfl, by decide⟩

/-- Claim C8, amended: `changedNodes(diff)` contains exactly the keys present
in `to` whose value in `from` is truthy and differs from the `to` value under
deep structural equality.  In particular keys absent from `from`, and keys
whose `from` value is falsy (0, false, null, the empty string), are never
reported as changed. -/
theorem getChangedNodes_spec (d : Diff) (k : String)
    (nd : (d.«to».map Prod.fst).Nodup) :
    k ∈ getChangedNodes d ↔
      ∃ vt vf, lookupA d.«to» k = some vt ∧ lookupA d.«from» k = some vf ∧
        vf.truthy = true ∧ vt ≠ vf := by
  unfold getChangedNodes
  constructor
  · intro h
    obtain ⟨kv, hkv, rfl⟩ := List.mem_map.mp h
    obtain ⟨hmem, hp⟩ := List.mem_filter.mp hkv
    refine ⟨kv.2, ?_⟩
    cases hv : lookupA d.«from» kv.1 with
    | none => rw [hv] at hp; simp at hp
    | some vf =>
      rw [hv] at hp
      simp only [Bool.and_eq_true] at hp
      refine ⟨vf, ?_, rfl, hp.1, ?_⟩
      · exact mem_lookupA d.«to» kv.1 kv.2 nd (by cases kv; exact hmem)
      · intro he
        rw [he] at hp
        simp [immutableIs] at hp
  · rintro ⟨vt, vf, hto, hfrom, htr, hne⟩
    refine List.mem_map.mpr ⟨(k, vt), List.mem_filter.mpr ⟨lookupA_mem d.«to» k vt hto, ?_⟩, rfl⟩
    rw [hfrom]
    simp only [htr, Bool.true_and, immutableIs, Bool.not_eq_true']
    exact beq_false_of_ne hne

/-- Witness for `getChangedNodes_spec` at a concrete diff. -/
theorem getChangedNodes_spec_witness :
    "a" ∈ getChangedNodes { «from» := [("a", Value.vnum 1)], «to» := [("a", Value.vnum 2)] } :=
  (getChangedNodes_spec { «from» := [("a", Value.vnum 1)], «to» := [("a", Value.vnum 2)] } "a"
    (by decide)).mpr
    ⟨Value.vnum 2, Value.vnum 1, by rfl, by rfl, by rfl, by decide⟩

/-- Claim C9: `mergeDiffs(d1, d2) = Diff(from = d1.from, to = d2.to)`, merging
is associative, and the merge is lossy: a node absent from `d1.from`, present
in the intermediate snapshot `d1.to`, and absent again from `d2.to` appears in
none of the merged diff's new, pruned, or changed node sets. -/
theorem mergeDiffs_spec :
    (∀ d1 d2 : Diff, mergeDiffs d1 d2 = { «from» := d1.«from», «to» := d2.«to» })
    ∧ (∀ d1 d2 d3 : Diff, mergeDiffs (mergeDiffs d1 d2) d3 = mergeDiffs d1 (mergeDiffs d2 d3))
    ∧ (∀ (d1 d2 : Diff) (k : String),
        snapshotHas d1.«from» k = false → snapshotHas d1.«to» k = true →
        snapshotHas d2.«to» k = false →
        k ∉ getNewNodesFromDiff (mergeDiffs d1 d2)
        ∧ k ∉ getPrunedNodesFromDiff (mergeDiffs d1 d2)
        ∧ k ∉ getChangedNodes (mergeDiffs d1 d2)) := by
  refine ⟨fun d1 d2 => rfl, fun d1 d2 d3 => rfl, fun d1 d2 k h1 _ h3 => ⟨?_, ?_, ?_⟩⟩
  · intro h
    exact snapshotHas_eq_false h3 (mem_keys_of_mem_filter_map h)
  · intro h
    exact snapshotHas_eq_false h1 (mem_keys_of_mem_filter_map h)
  · intro h
    exact snapshotHas_eq_false h3 (mem_keys_of_mem_filter_map h)

/-- Witness for `mergeDiffs_spec` on the spec's own example: `b` is added after
`d1.from` and removed before `d2.to`, and is invisible in the merged diff. -/
theorem mergeDiffs_spec_witness :
    "b" ∉ getNewNodesFromDiff (mergeDiffs { «from» := [], «to» := [("b", Value.vnum 2)] }
        { «from» := [("b", Value.vnum 2)], «to» := [] })
    ∧ "b" ∉ getPrunedNodesFromDiff (mergeDiffs { «from» := [], «to» := [("b", Value.vnum 2)] }
        { «from» := [("b", Value.vnum 2)], «to» := [] })
    ∧ "b" ∉ getChangedNodes (mergeDiffs { «from» := [], «to» := [("b", Value.vnum 2)] }
        { «from» := [("b", Value.vnum 2)], «to» := [] }) :=
  mergeDiffs_spec.2.2 { «from» := [], «to» := [("b", Value.vnum 2)] }
    { «from» := [("b", Value.vnum 2)], «to» := [] } "b" (by rfl) (by rfl) (by rfl)

/-! ## File system cache (`src/file_system/cache.js`)

The mutable object graph of a `FileSystemCache` plus all `FileSystemTrap`
objects created against it is embedded as one state, `CacheState`.  Traps are
identified by a `Nat` handle into the `traps` store; `File` records carry a
fresh `id` allocated by `_createFile` so that JavaScript reference equality
between a captured record and the currently stored one is `id` equality
(every record originates from one `_createFile` call).  The `File` class
itself lives in `src/file_system/file.js`, which is not part of the sources;
its property cells are producers of the injected storage backend, so a query
completion simply receives the settled outcome of that I/O.

The ingestion entry points are the `fileAdded` / `fileChanged` / `fileRemoved`
event-bus subscriptions, which invoke `_handleFileAdded` /
`_handleFileChanged` / `_handleFileRemoved` directly.  A handler that throws
a `TypeError` is modelled as returning `none`. -/

/-- The result of `stat`: `{isFile(): bool, mtime: Date}`. -/
structure StatInfo where
  isFile : Bool
  mtime : Int
deriving DecidableEq

/-- A `File` record as observable through the cache: its identity (allocation
order) and the property cells pre-seeded by `_createFile` / `setIsFile`. -/
structure FileRecord where
  id : Nat
  path : String
  seedStat : Option StatInfo
  seedIsFile : Option Bool
  seedModifiedTime : Option Int
deriving DecidableEq

/-- A trap's per-path recorded bindings, `undefined` modelled as `none`. -/
structure TrapBindings where
  isFile : Option Bool
  modifiedTime : Option Int
  textHash : Option String
deriving DecidableEq

def TrapBindings.empty : TrapBindings := ⟨none, none, none⟩

/-- The mutable fields of a `FileSystemTrap`. -/
structure FileSystemTrap where
  bindings : List (String × TrapBindings)
  boundFiles : List String
  triggerOnChange : List String
deriving DecidableEq

def FileSystemTrap.empty : FileSystemTrap := ⟨[], [], []⟩

inductive Cause : Type
  | added
  | changed
  | removed
deriving DecidableEq

/-- A `trapTriggered` event `{trap, path, cause}`. -/
structure TrapNotification where
  trap : Nat
  path : String
  cause : Cause
deriving DecidableEq

/-- The state of a `FileSystemCache` together with every trap created on it
and the log of `trapTriggered` events pushed so far. -/
structure CacheState where
  files : List (String × Option FileRecord)
  trapsByFile : List (String × List Nat)
  traps : List (Nat × FileSystemTrap)
  nextId : Nat
  emitted : List TrapNotification
deriving DecidableEq

def emptyCache : CacheState :=
  { files := [], trapsByFile := [], traps := [], nextId := 0, emitted := [] }

/-- Dereference a trap handle. -/
def CacheState.trap (st : CacheState) (tid : Nat) : FileSystemTrap :=
  (lookupA st.traps tid).getD FileSystemTrap.empty

def CacheState.updateTrap (st : CacheState) (tid : Nat)
    (f : FileSystemTrap → FileSystemTrap) : CacheState :=
  { st with traps := setA st.traps tid (f (st.trap tid)) }

/-- `new FileSystemTrap(this)`: allocate a fresh, empty trap. -/
def CacheState.createTrap (st : CacheState) (tid : Nat) : CacheState :=
  { st with traps := setA st.traps tid FileSystemTrap.empty }

/-- JS `Set.add`: idempotent, keeps insertion order. -/
def addToSet (l : List Nat) (t : Nat) : List Nat :=
  if t ∈ l then l else l ++ [t]

/-- `FileSystemCache._bindTrapToFile(trap, path)`. -/
def CacheState.bindTrapToFile (st : CacheState) (tid : Nat) (path : String) : CacheState :=
  let l := (lookupA st.trapsByFile path).getD []
  { st with trapsByFile := setA st.trapsByFile path (addToSet l tid) }

/-- `FileSystemCache._createFile(path, stat)`: allocates a fresh record,
pre-seeding `stat` / `isFile` / `modifiedTime` when a stat was supplied, and
stores it under `path`. -/
def CacheState.createFile (st : CacheState) (path : String) (stat : Option StatInfo) :
    CacheState × FileRecord :=
  let r : FileRecord :=
    { id := st.nextId, path := path, seedStat := stat,
      seedIsFile := stat.map fun s => s.isFile,
      seedModifiedTime := stat.map fun s => s.mtime }
  ({ st with files := setA st.files path (some r), nextId := st.nextId + 1 }, r)

/-- `FileSystemCache._removeFile(path)`: `this.files[path] = null`. -/
def CacheState.removeFile (st : CacheState) (path : String) : CacheState :=
  { st with files := setA st.files path none }

/-- `file.setIsFile(v)` on the record currently stored for `path` (the record
object is mutated in place, its identity is unchanged). -/
def CacheState.setRecordIsFile (st : CacheState) (path : String) (v : Bool) : CacheState :=
  match lookupA st.files path with
  | some (some r) => { st with files := setA st.files path (some { r with seedIsFile := some v }) }
  | _ => st

/-- The loop body of the disengage phase of `_triggerTraps`:
`this.trapsByFile[path].delete(trap)` for one `path in trap.bindings`; reading
a missing `trapsByFile[path]` entry would throw. -/
def detachStep (tid : Nat) (acc : CacheState) (pb : String × TrapBindings) : Option CacheState :=
  match lookupA acc.trapsByFile pb.1 with
  | some l =>
      some { acc with trapsByFile := setA acc.trapsByFile pb.1 (l.filter fun x => x != tid) }
  | none => none

/-- Disengage one trap: `for (const path in trap.bindings) trapsByFile[path].delete(trap)`. -/
def CacheState.detachTrap (st : CacheState) (tid : Nat) : Option CacheState :=
  (st.trap tid).bindings.foldlM (detachStep tid) st

/-- The first `while` loop of `_triggerTraps`, which walks the batch from the
last index down to index 0. -/
def CacheState.detachAll (st : CacheState) (tids : List Nat) : Option CacheState :=
  tids.foldlM CacheState.detachTrap st

/-- `FileSystemCache._triggerTraps(traps, path, cause)`: early return on an
empty batch; otherwise every trap is disengaged (in reverse batch order)
before any `trapTriggered` event is pushed, and the events are pushed in
reverse batch order. -/
def CacheState.triggerTraps (st : CacheState) (toTrigger : List Nat) (path : String)
    (cause : Cause) : Option CacheState :=
  if toTrigger.length = 0 then some st
  else
    (st.detachAll toTrigger.reverse).map fun st1 =>
      let batch : List TrapNotification := toTrigger.reverse.map fun tid => ⟨tid, path, cause⟩
      { st1 with emitted := st1.emitted ++ batch }

/-- The trigger test of `_handleFileAdded`: `bindings && bindings.isFile === false`. -/
def addedTrapQualifies (st : CacheState) (path : String) (tid : Nat) : Bool :=
  match lookupA (st.trap tid).bindings path with
  | some b => b.isFile == some false
  | none => false

/-- The record phase of `_handleFileAdded`: `const file = this.files[path];
if (!file) this._createFile(path, stat);` — a record is created only when the
entry is absent or null. -/
def CacheState.addedBase (st : CacheState) (path : String) (stat : Option StatInfo) :
    CacheState :=
  match lookupA st.files path with
  | some (some _) => st
  | _ => (st.createFile path stat).1

/-- `FileSystemCache._handleFileAdded(path, stat)`: creates a record only when
the path has no current (non-null) record, then fires the traps whose binding
recorded `isFile === false`. -/
def CacheState.handleFileAdded (st : CacheState) (path : String) (stat : Option StatInfo) :
    Option CacheState :=
  let st1 := st.addedBase path stat
  let traps := (lookupA st1.trapsByFile path).getD []
  st1.triggerTraps (traps.filter (addedTrapQualifies st1 path)) path Cause.added

/-- The trigger test of `_handleFileChanged`: `trap.triggerOnChange[path]`, or
a binding that recorded a `modifiedTime` or `textHash`. -/
def changedTrapQualifies (st : CacheState) (path : String) (tid : Nat) : Bool :=
  let t := st.trap tid
  if path ∈ t.triggerOnChange then true
  else
    match lookupA t.bindings path with
    | some b => b.modifiedTime.isSome || b.textHash.isSome
    | none => false

/-- `FileSystemCache._handleFileChanged(path, stat)`: replaces the record,
then fires the traps that qualify for a change. -/
def CacheState.handleFileChanged (st : CacheState) (path : String) (stat : Option StatInfo) :
    Option CacheState :=
  let st1 := ((st.removeFile path).createFile path stat).1
  let traps := (lookupA st1.trapsByFile path).getD []
  st1.triggerTraps (traps.filter (changedTrapQualifies st1 path)) path Cause.changed

/-- The collection loop of `_handleFileRemoved`: it reads
`trap.bindings[path].isFile` without a guard, so a registered trap that has
no bindings entry for `path` yet makes the handler throw a `TypeError`. -/
def removedCollect (st : CacheState) (path : String) (acc : List Nat) (tid : Nat) :
    Option (List Nat) :=
  match lookupA (st.trap tid).bindings path with
  | some b => some (if b.isFile == some true then acc ++ [tid] else acc)
  | none => none

/-- The record phase of `_handleFileRemoved`: `_removeFile`, `_createFile`
(with no stat), then `file.setIsFile(false)`. -/
def CacheState.removedBase (st : CacheState) (path : String) : CacheState :=
  (((st.removeFile path).createFile path none).1).setRecordIsFile path false

/-- `FileSystemCache._handleFileRemoved(path)`: replaces the record with a
fresh one pre-seeded `isFile = false`, then fires the traps whose binding
recorded `isFile === true`. -/
def CacheState.handleFileRemoved (st : CacheState) (path : String) : Option CacheState :=
  match ((lookupA (st.removedBase path).trapsByFile path).getD []).foldlM
      (removedCollect (st.removedBase path) path) ([] : List Nat) with
  | some toTrigger => (st.removedBase path).triggerTraps toTrigger path Cause.removed
  | none => none

/-- The synchronous part of `_evaluateFileMethod`: get or lazily create the
record; the returned record is the one captured by the promise chain. -/
def CacheState.evaluateFileMethodStart (st : CacheState) (path : String) :
    CacheState × FileRecord :=
  match lookupA st.files path with
  | some (some r) => (st, r)
  | _ => st.createFile path none

/-- The settled outcome of the underlying `File` property cell, produced by
the injected storage backend. -/
inductive Outcome (α : Type) : Type
  | ok (a : α)
  | ioError (e : String)
deriving DecidableEq

/-- What the caller of a `FileSystemCache` query observes: a resolution, a
rejection, or a promise that never settles. -/
inductive QueryOutcome (α : Type) : Type
  | resolved (a : α)
  | rejected (e : String)
  | blocked
deriving DecidableEq

/-- `FileSystemCache._blockStaleFilesFromResolving(file)` tests
`file !== this.files[file.path]`; with unique allocation ids, JS reference
inequality of records is id inequality. -/
def CacheState.blockStaleFilesFromResolving (st : CacheState) (file : FileRecord) : Bool :=
  match lookupA st.files file.path with
  | some (some r) => r.id != file.id
  | _ => true

/-- The `.catch`/`.then` guards of `_evaluateFileMethod` once the captured
record's cell settles: a stale record yields `new Promise(() => {})`, which
never settles. -/
def CacheState.evaluateFileMethodFinish {α : Type} (st : CacheState) (file : FileRecord)
    (out : Outcome α) : QueryOutcome α :=
  match out with
  | Outcome.ioError e =>
      if st.blockStaleFilesFromResolving file then QueryOutcome.blocked
      else QueryOutcome.rejected e
  | Outcome.ok a =>
      if st.blockStaleFilesFromResolving file then QueryOutcome.blocked
      else QueryOutcome.resolved a

/-- `FileSystemTrap._ensureBindingToFile(path)`. -/
def CacheState.ensureBindingToFile (st : CacheState) (tid : Nat) (path : String) : CacheState :=
  if (st.trap tid).boundFiles.contains path then st
  else
    let st1 := st.updateTrap tid fun t => { t with boundFiles := t.boundFiles ++ [path] }
    st1.bindTrapToFile tid path

/-- `FileSystemTrap._getFileBindings(path)` followed by a mutation of the
returned bindings object. -/
def CacheState.modifyBindings (st : CacheState) (tid : Nat) (path : String)
    (f : TrapBindings → TrapBindings) : CacheState :=
  let st1 :=
    match lookupA (st.trap tid).bindings path with
    | some _ => st
    | none =>
      (st.updateTrap tid fun t =>
        { t with bindings := setA t.bindings path TrapBindings.empty }).ensureBindingToFile tid path
  st1.updateTrap tid fun t =>
    { t with bindings := setA t.bindings path (f ((lookupA t.bindings path).getD TrapBindings.empty)) }

/-- The synchronous part of `FileSystemTrap.isFile(path)` (it registers
nothing up front; `cache.isFile` just starts the underlying query). -/
def CacheState.trapIsFileStart (st : CacheState) (path : String) : CacheState × FileRecord :=
  st.evaluateFileMethodStart path

/-- The `.then` of `FileSystemTrap.isFile(path)`: record `isFile` first-write-wins. -/
def CacheState.trapIsFileFinish (st : CacheState) (tid : Nat) (path : String)
    (file : FileRecord) (out : Outcome Bool) : CacheState × QueryOutcome Bool :=
  match st.evaluateFileMethodFinish file out with
  | QueryOutcome.resolved v =>
      (st.modifyBindings tid path fun b =>
        if b.isFile = none then { b with isFile := some v } else b,
       QueryOutcome.resolved v)
  | r => (st, r)

/-- The common synchronous prefix of the content-sensitive trap methods
(`stat`, `readModifiedTime`, `readBuffer`, `readText`, `readTextHash`):
`_ensureBindingToFile(path); this.triggerOnChange[path] = true;` then the
synchronous part of the delegated cache query. -/
def CacheState.contentQueryStart (st : CacheState) (tid : Nat) (path : String) :
    CacheState × FileRecord :=
  let st1 := st.ensureBindingToFile tid path
  let st1 := st1.updateTrap tid fun t =>
    let toc := if t.triggerOnChange.contains path then t.triggerOnChange else t.triggerOnChange ++ [path]
    { t with triggerOnChange := toc }
  st1.evaluateFileMethodStart path

/-- The `.then` of `FileSystemTrap.stat(path)`: sets `isFile = true`
unconditionally and `modifiedTime` first-write-wins. -/
def CacheState.trapStatFinish (st : CacheState) (tid : Nat) (path : String)
    (file : FileRecord) (out : Outcome StatInfo) : CacheState × QueryOutcome StatInfo :=
  match st.evaluateFileMethodFinish file out with
  | QueryOutcome.resolved s =>
      (st.modifyBindings tid path fun b =>
        let b1 := { b with isFile := some true }
        if b1.modifiedTime = none then { b1 with modifiedTime := some s.mtime } else b1,
       QueryOutcome.resolved s)
  | r => (st, r)

/-- The `.then` of `FileSystemTrap.readModifiedTime(path)`: sets both
`isFile = true` and `modifiedTime` unconditionally. -/
def CacheState.trapReadModifiedTimeFinish (st : CacheState) (tid : Nat) (path : String)
    (file : FileRecord) (out : Outcome Int) : CacheState × QueryOutcome Int :=
  match st.evaluateFileMethodFinish file out with
  | QueryOutcome.resolved mt =>
      (st.modifyBindings tid path fun b =>
        { b with isFile := some true, modifiedTime := some mt },
       QueryOutcome.resolved mt)
  | r => (st, r)

/-- The innermost `.then` of `FileSystemTrap.readTextHash(path)` (run after
its nested `readModifiedTime` completes): record `textHash` first-write-wins. -/
def CacheState.trapReadTextHashRecord (st : CacheState) (tid : Nat) (path : String)
    (h : String) : CacheState :=
  st.modifyBindings tid path fun b =>
    if b.textHash = none then { b with textHash := some h } else b

/-- The binding value a trap holds for one field of one path. -/
def CacheState.bindingIsFile (st : CacheState) (tid : Nat) (path : String) : Option Bool :=
  (lookupA (st.trap tid).bindings path).bind fun b => b.isFile

def CacheState.bindingModifiedTime (st : CacheState) (tid : Nat) (path : String) : Option Int :=
  (lookupA (st.trap tid).bindings path).bind fun b => b.modifiedTime

def CacheState.bindingTextHash (st : CacheState) (tid : Nat) (path : String) : Option String :=
  (lookupA (st.trap tid).bindings path).bind fun b => b.textHash

/-- All record ids stored in `files` are below the allocation counter (true of
every state built by the cache's own operations). -/
def CacheState.idsBelow (st : CacheState) : Bool :=
  st.files.all fun pr =>
    match pr.2 with
    | some r => decide (r.id < st.nextId)
    | none => true

/-! ## Concrete executions

`twoPathStep*` replays this history on a fresh cache with one trap (handle 0):

1. the trap's `isFile("a")` resolves `true`, recording `isFile = true` for
   `"a"` and registering the trap for `"a"`;
2. the trap's `stat("b")` starts: the trap is registered for `"b"`,
   `triggerOnChange["b"]` is set, and the stat I/O is now in flight;
3. `fileRemoved("a")` arrives; the trap qualifies (`isFile === true`);
4. the in-flight `stat("b")` resolves, recording bindings for `"b"`;
5. `fileRemoved("b")` arrives. -/

def twoPathStep1 : CacheState × FileRecord :=
  (emptyCache.createTrap 0).trapIsFileStart "a"

def twoPathStep2 : CacheState :=
  (twoPathStep1.1.trapIsFileFinish 0 "a" twoPathStep1.2 (Outcome.ok true)).1

def twoPathStep3 : CacheState × FileRecord :=
  twoPathStep2.contentQueryStart 0 "b"

def twoPathStep4 : Option CacheState :=
  twoPathStep3.1.handleFileRemoved "a"

def twoPathStep5 : Option CacheState :=
  twoPathStep4.map fun st => (st.trapStatFinish 0 "b" twoPathStep3.2 (Outcome.ok ⟨true, 7⟩)).1

def twoPathStep6 : Option CacheState :=
  twoPathStep5.bind fun st => st.handleFileRemoved "b"

/-- Claim C2 fails on the code: after the history above, two `trapTriggered`
events have been emitted for the same trap (one for `"a"`, one for `"b"`).
The first firing only removed the trap from the reverse-index entries of the
paths in `trap.bindings`, so its registration for `"b"` (made by the then
in-flight `stat("b")`, before any binding was recorded) survived and the trap
fired a second time. -/
theorem trap_fires_twice :
    (twoPathStep6.map fun st => st.emitted) =
      some [⟨0, "a", Cause.removed⟩, ⟨0, "b", Cause.removed⟩] := by decide

/-- Claim C3's detachment scope fails on the code: directly after the first
firing (step 4) the fired trap is still present in the reverse-index entry of
`"b"`, a path it was bound to (`"b"` is in `boundFiles`), because
`_triggerTraps` iterates `trap.bindings`, not `trap.boundFiles`. -/
theorem fired_trap_still_registered :
    (twoPathStep4.map fun st =>
      ((lookupA st.trapsByFile "b").getD [], (st.trap 0).boundFiles.contains "b", st.emitted)) =
      some ([0], true, [⟨0, "a", Cause.removed⟩]) := by decide

/-- The state reached on a fresh cache after a trap's `stat("a")` has started
(the trap is registered for `"a"`) but before its binding is recorded. -/
def statInFlight : CacheState :=
  ((emptyCache.createTrap 0).contentQueryStart 0 "a").1

/-- Claim C10 fails on the code: `_handleFileRemoved` reads
`trap.bindings[path].isFile` without the guard its sibling handlers have, so
`fileRemoved("a")` in the `statInFlight` state throws a `TypeError` instead
of completing and skipping the bindingless trap. -/
theorem handleFileRemoved_throws_on_bindingless_trap :
    statInFlight.handleFileRemoved "a" = none
    ∧ (lookupA statInFlight.trapsByFile "a").getD [] = [0]
    ∧ lookupA (statInFlight.trap 0).bindings "a" = none := by decide

/-- History for claim C1: on a fresh cache, the trap's `isFile("a")` resolves
`false` (the file does not exist), recording `isFile = false`; later the file
appears on disk (no watcher event yet) and the trap's `stat("a")` resolves
successfully. -/
def isFileThenStat1 : CacheState × FileRecord :=
  (emptyCache.createTrap 0).trapIsFileStart "a"

def isFileThenStat2 : CacheState :=
  (isFileThenStat1.1.trapIsFileFinish 0 "a" isFileThenStat1.2 (Outcome.ok false)).1

def isFileThenStat3 : CacheState × FileRecord :=
  isFileThenStat2.contentQueryStart 0 "a"

def isFileThenStat4 : CacheState :=
  (isFileThenStat3.1.trapStatFinish 0 "a" isFileThenStat3.2 (Outcome.ok ⟨true, 5⟩)).1

/-- Claim C1 fails on the code: the trap recorded `isFile = false` for `"a"`,
and a later `stat` query on the same trap overwrote it with `true`
(`bindings.isFile = true` in `stat`'s `.then` is unconditional). -/
theorem stat_overwrites_recorded_isFile :
    isFileThenStat2.bindingIsFile 0 "a" = some false
    ∧ isFileThenStat4.bindingIsFile 0 "a" = some true := by decide

/-- State for claim C5's counterexample: trap 0 recorded `isFile = true` for
`"a"`; trap 1 is registered for `"a"` by an in-flight content query but has
no bindings entry yet. -/
def removedCrashState : CacheState :=
  let st := (emptyCache.createTrap 0).trapIsFileStart "a"
  let st1 := (st.1.trapIsFileFinish 0 "a" st.2 (Outcome.ok true)).1
  ((st1.createTrap 1).contentQueryStart 1 "a").1

/-- Claim C5 fails on the code for the `removed` direction: trap 0 is
registered for `"a"` and its binding recorded `isFile == true`, yet
`fileRemoved("a")` fires nothing — the collection loop throws a `TypeError`
on trap 1, which has no bindings entry. -/
theorem removed_misses_qualifying_trap :
    removedCrashState.bindingIsFile 0 "a" = some true
    ∧ (lookupA removedCrashState.trapsByFile "a").getD [] = [0, 1]
    ∧ removedCrashState.handleFileRemoved "a" = none := by decide

/-- A cache that already has a (non-null) record for `"a"`. -/
def existingRecordState : CacheState :=
  (emptyCache.createFile "a" none).1

/-- Claim C6 fails on the code for `onFileAdded`: when a record already
exists for the path, `_handleFileAdded` leaves it in place (`if (!file)`), so
the record after the call is the very record stored before it, not a new one. -/
theorem handleFileAdded_keeps_existing_record :
    existingRecordState.handleFileAdded "a" none = some existingRecordState
    ∧ lookupA existingRecordState.files "a" =
        some (some { id := 0, path := "a", seedStat := none, seedIsFile := none,
                     seedModifiedTime := none }) := by decide

/-! ## Structural lemmas about `_triggerTraps` -/

theorem trap_congr {st1 st2 : CacheState} (h : st1.traps = st2.traps) (tid : Nat) :
    st1.trap tid = st2.trap tid := by
  unfold CacheState.trap
  rw [h]

theorem detachStep_fields {tid : Nat} {acc acc1 : CacheState} {pb : String × TrapBindings}
    (h : detachStep tid acc pb = some acc1) :
    acc1.files = acc.files ∧ acc1.traps = acc.traps ∧ acc1.nextId = acc.nextId
    ∧ acc1.emitted = acc.emitted := by
  unfold detachStep at h
  cases hl : lookupA acc.trapsByFile pb.1 with
  | none => rw [hl] at h; exact absurd h (by simp)
  | some l =>
    rw [hl] at h
    cases h
    exact ⟨rfl, rfl, rfl, rfl⟩

theorem foldlM_detachStep_fields {tid : Nat} :
    ∀ (bs : List (String × TrapBindings)) (acc acc1 : CacheState),
    bs.foldlM (detachStep tid) acc = some acc1 →
    acc1.files = acc.files ∧ acc1.traps = acc.traps ∧ acc1.nextId = acc.nextId
    ∧ acc1.emitted = acc.emitted := by
  intro bs
  induction bs with
  | nil =>
    intro acc acc1 h
    cases h
    exact ⟨rfl, rfl, rfl, rfl⟩
  | cons hd tl ih =>
    intro acc acc1 h
    rw [List.foldlM_cons] at h
    rcases Option.bind_eq_some.mp h with ⟨mid, hmid, hrest⟩
    obtain ⟨f1, t1, n1, e1⟩ := detachStep_fields hmid
    obtain ⟨f2, t2, n2, e2⟩ := ih mid acc1 hrest
    exact ⟨f2.trans f1, t2.trans t1, n2.trans n1, e2.trans e1⟩

theorem detachTrap_fields {st st1 : CacheState} {tid : Nat}
    (h : st.detachTrap tid = some st1) :
    st1.files = st.files ∧ st1.traps = st.traps ∧ st1.nextId = st.nextId
    ∧ st1.emitted = st.emitted :=
  foldlM_detachStep_fields _ st st1 h

theorem detachAll_fields :
    ∀ (tids : List Nat) (st st1 : CacheState), st.detachAll tids = some st1 →
    st1.files = st.files ∧ st1.traps = st.traps ∧ st1.nextId = st.nextId
    ∧ st1.emitted = st.emitted := by
  intro tids
  induction tids with
  | nil =>
    intro st st1 h
    cases h
    exact ⟨rfl, rfl, rfl, rfl⟩
  | cons hd tl ih =>
    intro st st1 h
    unfold CacheState.detachAll at h
    rw [List.foldlM_cons] at h
    rcases Option.bind_eq_some.mp h with ⟨mid, hmid, hrest⟩
    obtain ⟨f1, t1, n1, e1⟩ := detachTrap_fields hmid
    obtain ⟨f2, t2, n2, e2⟩ := ih mid st1 hrest
    exact ⟨f2.trans f1, t2.trans t1, n2.trans n1, e2.trans e1⟩

/-- Decomposition of `_triggerTraps`: the result state is the fully
disengaged state `st1` with the batch of notifications appended afterwards,
in reverse batch order. -/
theorem triggerTraps_spec {st st' : CacheState} {l : List Nat} {p : String} {c : Cause}
    (h : st.triggerTraps l p c = some st') :
    ∃ st1, st.detachAll l.reverse = some st1
      ∧ st'.trapsByFile = st1.trapsByFile
      ∧ st'.files = st.files ∧ st'.traps = st.traps ∧ st'.nextId = st.nextId
      ∧ st'.emitted = st.emitted ++ l.reverse.map fun tid => ⟨tid, p, c⟩ := by
  unfold CacheState.triggerTraps at h
  by_cases hl : l.length = 0
  · rw [if_pos hl] at h
    cases h
    have hnil : l = [] := List.length_eq_zero.mp hl
    subst hnil
    exact ⟨st, rfl, rfl, rfl, rfl, rfl, by simp⟩
  · rw [if_neg hl] at h
    rcases Option.map_eq_some'.mp h with ⟨st1, hd, hst'⟩
    obtain ⟨hf, ht, hn, he⟩ := detachAll_fields _ st st1 hd
    subst hst'
    exact ⟨st1, hd, rfl, hf, ht, hn, by rw [he]⟩

/-! ## The trigger rules of the three ingestion handlers -/

theorem addedBase_fields (st : CacheState) (p : String) (stat : Option StatInfo) :
    (st.addedBase p stat).trapsByFile = st.trapsByFile
    ∧ (st.addedBase p stat).traps = st.traps
    ∧ (st.addedBase p stat).emitted = st.emitted := by
  unfold CacheState.addedBase
  cases hl : lookupA st.files p with
  | none => exact ⟨rfl, rfl, rfl⟩
  | some o =>
    cases o with
    | none => exact ⟨rfl, rfl, rfl⟩
    | some r => exact ⟨rfl, rfl, rfl⟩

theorem removedBase_fields (st : CacheState) (p : String) :
    (st.removedBase p).trapsByFile = st.trapsByFile
    ∧ (st.removedBase p).traps = st.traps
    ∧ (st.removedBase p).emitted = st.emitted
    ∧ (st.removedBase p).nextId = st.nextId + 1
    ∧ lookupA (st.removedBase p).files p =
        some (some { id := st.nextId, path := p, seedStat := none,
                     seedIsFile := some false, seedModifiedTime := none }) := by
  unfold CacheState.removedBase CacheState.setRecordIsFile
  rw [show (((st.removeFile p).createFile p none).1).files
      = setA (setA st.files p none) p
          (some { id := st.nextId, path := p, seedStat := none, seedIsFile := none,
                  seedModifiedTime := none }) from rfl]
  rw [lookupA_setA_self]
  exact ⟨rfl, rfl, rfl, rfl, lookupA_setA_self _ _ _⟩

theorem changedTrapQualifies_iff (st : CacheState) (p : String) (tid : Nat) :
    changedTrapQualifies st p tid = true ↔
      (p ∈ (st.trap tid).triggerOnChange
       ∨ ∃ b, lookupA (st.trap tid).bindings p = some b
           ∧ (b.modifiedTime.isSome = true ∨ b.textHash.isSome = true)) := by
  unfold changedTrapQualifies
  by_cases hm : p ∈ (st.trap tid).triggerOnChange
  · simp [hm]
  · rw [if_neg hm]
    cases hb : lookupA (st.trap tid).bindings p with
    | none =>
      simp only [hm, false_or]
      constructor
      · intro h
        exact absurd h (by simp)
      · rintro ⟨b, hb2, _⟩
        exact absurd hb2 (by simp)
    | some b =>
      simp only [hm, false_or, Bool.or_eq_true]
      constructor
      · intro h
        exact ⟨b, rfl, h⟩
      · rintro ⟨b2, hb2, h⟩
        cases hb2
        exact h

theorem addedTrapQualifies_iff (st : CacheState) (p : String) (tid : Nat) :
    addedTrapQualifies st p tid = true ↔
      ∃ b, lookupA (st.trap tid).bindings p = some b ∧ b.isFile = some false := by
  unfold addedTrapQualifies
  cases hb : lookupA (st.trap tid).bindings p with
  | none =>
    constructor
    · intro h
      exact absurd h (by simp)
    · rintro ⟨b, hb2, _⟩
      exact absurd hb2 (by simp)
  | some b =>
    rw [beq_iff_eq]
    constructor
    · intro h
      exact ⟨b, rfl, h⟩
    · rintro ⟨b2, hb2, h⟩
      cases hb2
      exact h

/-- Membership in an emitted batch names exactly the triggered trap handles. -/
theorem mem_batch_iff (l : List Nat) (p : String) (c : Cause) (tid : Nat) :
    (⟨tid, p, c⟩ : TrapNotification) ∈ (l.reverse.map fun t => (⟨t, p, c⟩ : TrapNotification))
      ↔ tid ∈ l := by
  rw [List.mem_map]
  constructor
  · rintro ⟨x, hx, he⟩
    have : x = tid := congrArg TrapNotification.trap he
    subst this
    exact List.mem_reverse.mp hx
  · intro h
    exact ⟨tid, List.mem_reverse.mpr h, rfl⟩

/-- Claim C4: for a trap registered in the reverse index of `path`,
`onFileChanged(path, stat)` fires it exactly when it requested
`triggerOnChange` for `path` or its binding recorded a `modifiedTime` or a
`textHash`; a trap whose only binding is an `isFile` value does not fire. -/
theorem handleFileChanged_fires_iff (st : CacheState) (p : String) (stat : Option StatInfo)
    (tid : Nat) (st' : CacheState)
    (hs : st.handleFileChanged p stat = some st')
    (hreg : tid ∈ (lookupA st.trapsByFile p).getD []) :
    ((⟨tid, p, Cause.changed⟩ : TrapNotification) ∈ st'.emitted.drop st.emitted.length) ↔
      (p ∈ (st.trap tid).triggerOnChange
       ∨ ∃ b, lookupA (st.trap tid).bindings p = some b
           ∧ (b.modifiedTime.isSome = true ∨ b.textHash.isSome = true)) := by
  unfold CacheState.handleFileChanged at hs
  obtain ⟨st1, hd, htb, hf, ht, hn, he⟩ := triggerTraps_spec hs
  have he2 : st'.emitted = st.emitted ++
      ((((lookupA st.trapsByFile p).getD []).filter (changedTrapQualifies st p)).reverse.map
        fun t => (⟨t, p, Cause.changed⟩ : TrapNotification)) := he
  have hdrop : st'.emitted.drop st.emitted.length =
      (((lookupA st.trapsByFile p).getD []).filter (changedTrapQualifies st p)).reverse.map
        fun t => (⟨t, p, Cause.changed⟩ : TrapNotification) := by
    rw [he2]
    exact List.drop_left _ _
  rw [hdrop, mem_batch_iff, List.mem_filter, ← changedTrapQualifies_iff st p tid]
  constructor
  · intro h
    exact h.2
  · intro h
    exact ⟨hreg, h⟩

/-- A one-trap cache whose trap requested `triggerOnChange` for `"a"`. -/
def changeSensitiveState : CacheState :=
  { files := [], trapsByFile := [("a", [0])],
    traps := [(0, { bindings := [], boundFiles := ["a"], triggerOnChange := ["a"] })],
    nextId := 0, emitted := [] }

/-- The state after `fileChanged("a")` on `changeSensitiveState`. -/
def changeSensitiveAfter : CacheState :=
  { files := [("a", some { id := 0, path := "a", seedStat := none, seedIsFile := none,
                           seedModifiedTime := none })],
    trapsByFile := [("a", [0])],
    traps := [(0, { bindings := [], boundFiles := ["a"], triggerOnChange := ["a"] })],
    nextId := 1, emitted := [⟨0, "a", Cause.changed⟩] }

/-- Witness for `handleFileChanged_fires_iff`. -/
theorem handleFileChanged_fires_iff_witness :
    (⟨0, "a", Cause.changed⟩ : TrapNotification) ∈
      changeSensitiveAfter.emitted.drop changeSensitiveState.emitted.length :=
  (handleFileChanged_fires_iff changeSensitiveState "a" none 0 changeSensitiveAfter
    (by decide) (by decide)).mpr (Or.inl (by decide))

/-- The collection loop of `_handleFileRemoved` collects exactly the traps
whose binding recorded `isFile === true` (when it completes at all). -/
theorem removedCollect_mem (st : CacheState) (p : String) :
    ∀ (l acc out : List Nat),
    l.foldlM (removedCollect st p) acc = some out →
    ∀ x, x ∈ out ↔
      x ∈ acc ∨ (x ∈ l ∧ ∃ b, lookupA (st.trap x).bindings p = some b ∧ b.isFile = some true) := by
  intro l
  induction l with
  | nil =>
    intro acc out h x
    cases h
    simp
  | cons hd tl ih =>
    intro acc out h x
    rw [List.foldlM_cons] at h
    rcases Option.bind_eq_some.mp h with ⟨mid, hmid, hrest⟩
    unfold removedCollect at hmid
    cases hb : lookupA (st.trap hd).bindings p with
    | none =>
      rw [hb] at hmid
      exact absurd hmid (by simp)
    | some b =>
      rw [hb] at hmid
      have hmid1 : (if (b.isFile == some true) = true then acc ++ [hd] else acc) = mid :=
        Option.some.inj hmid
      have hiff := ih mid out hrest x
      cases hba : (b.isFile == some true) with
      | true =>
        rw [hba] at hmid1
        simp only [if_pos rfl] at hmid1
        have hbt : b.isFile = some true := beq_iff_eq.mp hba
        have hmid2 : mid = acc ++ [hd] := hmid1.symm
        subst hmid2
        rw [hiff]
        simp only [List.mem_append, List.mem_singleton, List.mem_cons]
        by_cases hx : x = hd
        · have hc : ∃ b2, lookupA (st.trap x).bindings p = some b2 ∧ b2.isFile = some true := by
            subst hx
            exact ⟨b, hb, hbt⟩
          tauto
        · tauto
      | false =>
        rw [hba] at hmid1
        simp only [Bool.false_eq_true, if_false] at hmid1
        have hbt : ¬ (b.isFile = some true) := by
          intro he
          rw [he] at hba
          simp at hba
        have hmid2 : mid = acc := hmid1.symm
        subst hmid2
        rw [hiff]
        simp only [List.mem_cons]
        by_cases hx : x = hd
        · have hc : ¬ ∃ b2, lookupA (st.trap x).bindings p = some b2 ∧ b2.isFile = some true := by
            rintro ⟨b2, hb2, h2⟩
            subst hx
            rw [hb] at hb2
            cases hb2
            exact hbt h2
          constructor
          · rintro (ha | ⟨htl, hcx⟩)
            · exact Or.inl ha
            · exact Or.inr ⟨Or.inr htl, hcx⟩
          · rintro (ha | ⟨hor, hcx⟩)
            · exact Or.inl ha
            · exact absurd hcx hc
        · tauto

theorem handleFileAdded_fires_iff_aux (st : CacheState) (p : String) (stat : Option StatInfo)
    (tid : Nat) (st' : CacheState)
    (hs : st.handleFileAdded p stat = some st')
    (hreg : tid ∈ (lookupA st.trapsByFile p).getD []) :
    ((⟨tid, p, Cause.added⟩ : TrapNotification) ∈ st'.emitted.drop st.emitted.length) ↔
      ∃ b, lookupA (st.trap tid).bindings p = some b ∧ b.isFile = some false := by
  unfold CacheState.handleFileAdded at hs
  obtain ⟨hb1, hb2, hb3⟩ := addedBase_fields st p stat
  obtain ⟨st1, hd, htb, hf, ht, hn, he⟩ := triggerTraps_spec hs
  rw [hb3, hb1] at he
  have hq : addedTrapQualifies (st.addedBase p stat) p = addedTrapQualifies st p := by
    funext x
    unfold addedTrapQualifies
    rw [trap_congr hb2]
  rw [hq] at he
  have hdrop : st'.emitted.drop st.emitted.length =
      (((lookupA st.trapsByFile p).getD []).filter (addedTrapQualifies st p)).reverse.map
        fun t => (⟨t, p, Cause.added⟩ : TrapNotification) := by
    rw [he]
    exact List.drop_left _ _
  rw [hdrop, mem_batch_iff, List.mem_filter, ← addedTrapQualifies_iff st p tid]
  constructor
  · intro h
    exact h.2
  · intro h
    exact ⟨hreg, h⟩

theorem handleFileRemoved_fires_iff_aux (st : CacheState) (p : String)
    (tid : Nat) (st' : CacheState)
    (hs : st.handleFileRemoved p = some st')
    (hreg : tid ∈ (lookupA st.trapsByFile p).getD []) :
    ((⟨tid, p, Cause.removed⟩ : TrapNotification) ∈ st'.emitted.drop st.emitted.length) ↔
      ∃ b, lookupA (st.trap tid).bindings p = some b ∧ b.isFile = some true := by
  unfold CacheState.handleFileRemoved at hs
  obtain ⟨hb1, hb2, hb3, hb4, hb5⟩ := removedBase_fields st p
  cases hcol : ((lookupA (st.removedBase p).trapsByFile p).getD []).foldlM
      (removedCollect (st.removedBase p) p) ([] : List Nat) with
  | none =>
    rw [hcol] at hs
    exact absurd hs (by simp)
  | some toTrigger =>
    rw [hcol] at hs
    obtain ⟨st1, hd, htb, hf, ht, hn, he⟩ := triggerTraps_spec hs
    rw [hb3] at he
    have hdrop : st'.emitted.drop st.emitted.length =
        toTrigger.reverse.map fun t => (⟨t, p, Cause.removed⟩ : TrapNotification) := by
      rw [he]
      exact List.drop_left _ _
    rw [hdrop, mem_batch_iff]
    have hmem := removedCollect_mem (st.removedBase p) p _ [] toTrigger hcol tid
    rw [hmem, trap_congr hb2, hb1]
    simp only [List.not_mem_nil, false_or]
    constructor
    · intro h
      exact h.2
    · intro h
      exact ⟨hreg, h⟩

/-- Claim C5, amended: for a trap registered in the reverse index of `P`,
`onFileAdded(P, stat)` fires it iff its binding for `P` recorded
`isFile == false`; and provided `onFileRemoved(P)` completes without throwing
(equivalently, every trap registered for `P` has a bindings entry for `P`),
`onFileRemoved(P)` fires it iff its binding for `P` recorded `isFile == true`. -/
theorem added_removed_fire_iff :
    (∀ (st : CacheState) (p : String) (stat : Option StatInfo) (tid : Nat) (st' : CacheState),
      st.handleFileAdded p stat = some st' →
      tid ∈ (lookupA st.trapsByFile p).getD [] →
      (((⟨tid, p, Cause.added⟩ : TrapNotification) ∈ st'.emitted.drop st.emitted.length) ↔
        ∃ b, lookupA (st.trap tid).bindings p = some b ∧ b.isFile = some false))
    ∧ (∀ (st : CacheState) (p : String) (tid : Nat) (st' : CacheState),
      st.handleFileRemoved p = some st' →
      tid ∈ (lookupA st.trapsByFile p).getD [] →
      (((⟨tid, p, Cause.removed⟩ : TrapNotification) ∈ st'.emitted.drop st.emitted.length) ↔
        ∃ b, lookupA (st.trap tid).bindings p = some b ∧ b.isFile = some true)) :=
  ⟨handleFileAdded_fires_iff_aux, handleFileRemoved_fires_iff_aux⟩

/-- A one-trap cache whose trap recorded `isFile = false` for `"a"`. -/
def absenceObserverState : CacheState :=
  { files := [], trapsByFile := [("a", [0])],
    traps := [(0, { bindings := [("a", { isFile := some false, modifiedTime := none,
                                         textHash := none })],
                    boundFiles := ["a"], triggerOnChange := [] })],
    nextId := 0, emitted := [] }

/-- The state after `fileAdded("a")` on `absenceObserverState`. -/
def absenceObserverAfter : CacheState :=
  { files := [("a", some { id := 0, path := "a", seedStat := none, seedIsFile := none,
                           seedModifiedTime := none })],
    trapsByFile := [("a", [])],
    traps := [(0, { bindings := [("a", { isFile := some false, modifiedTime := none,
                                         textHash := none })],
                    boundFiles := ["a"], triggerOnChange := [] })],
    nextId := 1, emitted := [⟨0, "a", Cause.added⟩] }

/-- A one-trap cache whose trap recorded `isFile = true` for `"a"`. -/
def presenceObserverState : CacheState :=
  { files := [], trapsByFile := [("a", [0])],
    traps := [(0, { bindings := [("a", { isFile := some true, modifiedTime := none,
                                         textHash := none })],
                    boundFiles := ["a"], triggerOnChange := [] })],
    nextId := 0, emitted := [] }

/-- The state after `fileRemoved("a")` on `presenceObserverState`. -/
def presenceObserverAfter : CacheState :=
  { files := [("a", some { id := 0, path := "a", seedStat := none, seedIsFile := some false,
                           seedModifiedTime := none })],
    trapsByFile := [("a", [])],
    traps := [(0, { bindings := [("a", { isFile := some true, modifiedTime := none,
                                         textHash := none })],
                    boundFiles := ["a"], triggerOnChange := [] })],
    nextId := 1, emitted := [⟨0, "a", Cause.removed⟩] }

/-- Witness for `added_removed_fire_iff`. -/
theorem added_removed_fire_iff_witness :
    ((⟨0, "a", Cause.added⟩ : TrapNotification) ∈
      absenceObserverAfter.emitted.drop absenceObserverState.emitted.length)
    ∧ ((⟨0, "a", Cause.removed⟩ : TrapNotification) ∈
      presenceObserverAfter.emitted.drop presenceObserverState.emitted.length) :=
  ⟨(added_removed_fire_iff.1 absenceObserverState "a" none 0 absenceObserverAfter
      (by decide) (by decide)).mpr
      ⟨{ isFile := some false, modifiedTime := none, textHash := none }, by decide, by decide⟩,
   (added_removed_fire_iff.2 presenceObserverState "a" 0 presenceObserverAfter
      (by decide) (by decide)).mpr
      ⟨{ isFile := some true, modifiedTime := none, textHash := none }, by decide, by decide⟩⟩

/-! ## Record replacement and the staleness barrier -/

theorem idsBelow_lookup (st : CacheState) (p : String) (r : FileRecord)
    (h : st.idsBelow = true) (hl : lookupA st.files p = some (some r)) :
    r.id < st.nextId := by
  unfold CacheState.idsBelow at h
  have hm := lookupA_mem _ _ _ hl
  have h2 := List.all_eq_true.mp h _ hm
  simpa using h2

theorem handleFileChanged_files (st : CacheState) (p : String) (stat : Option StatInfo)
    (st' : CacheState) (hs : st.handleFileChanged p stat = some st') :
    lookupA st'.files p =
      some (some { id := st.nextId, path := p, seedStat := stat,
                   seedIsFile := stat.map fun s => s.isFile,
                   seedModifiedTime := stat.map fun s => s.mtime }) := by
  unfold CacheState.handleFileChanged at hs
  obtain ⟨st1, hd, htb, hf, ht, hn, he⟩ := triggerTraps_spec hs
  have hf2 : st'.files = setA (setA st.files p none) p
      (some { id := st.nextId, path := p, seedStat := stat,
              seedIsFile := stat.map fun s => s.isFile,
              seedModifiedTime := stat.map fun s => s.mtime }) := hf
  rw [hf2, lookupA_setA_self]

theorem handleFileRemoved_files (st : CacheState) (p : String)
    (st' : CacheState) (hs : st.handleFileRemoved p = some st') :
    lookupA st'.files p =
      some (some { id := st.nextId, path := p, seedStat := none,
                   seedIsFile := some false, seedModifiedTime := none }) := by
  unfold CacheState.handleFileRemoved at hs
  obtain ⟨hb1, hb2, hb3, hb4, hb5⟩ := removedBase_fields st p
  cases hcol : ((lookupA (st.removedBase p).trapsByFile p).getD []).foldlM
      (removedCollect (st.removedBase p) p) ([] : List Nat) with
  | none =>
    rw [hcol] at hs
    exact absurd hs (by simp)
  | some toTrigger =>
    rw [hcol] at hs
    obtain ⟨st1, hd, htb, hf, ht, hn, he⟩ := triggerTraps_spec hs
    rw [hf]
    exact hb5

theorem handleFileAdded_files_existing (st : CacheState) (p : String) (stat : Option StatInfo)
    (st' : CacheState) (r0 : FileRecord)
    (hr : lookupA st.files p = some (some r0))
    (hs : st.handleFileAdded p stat = some st') :
    lookupA st'.files p = some (some r0) := by
  unfold CacheState.handleFileAdded at hs
  obtain ⟨st1, hd, htb, hf, ht, hn, he⟩ := triggerTraps_spec hs
  have hf2 : st'.files = (st.addedBase p stat).files := hf
  have hbase : (st.addedBase p stat).files = st.files := by
    unfold CacheState.addedBase
    rw [hr]
  rw [hf2, hbase, hr]

theorem handleFileAdded_files_fresh (st : CacheState) (p : String) (stat : Option StatInfo)
    (st' : CacheState)
    (hr : ∀ r0, lookupA st.files p ≠ some (some r0))
    (hs : st.handleFileAdded p stat = some st') :
    lookupA st'.files p =
      some (some { id := st.nextId, path := p, seedStat := stat,
                   seedIsFile := stat.map fun s => s.isFile,
                   seedModifiedTime := stat.map fun s => s.mtime }) := by
  unfold CacheState.handleFileAdded at hs
  obtain ⟨st1, hd, htb, hf, ht, hn, he⟩ := triggerTraps_spec hs
  have hf2 : st'.files = (st.addedBase p stat).files := hf
  have hbase : (st.addedBase p stat).files = setA st.files p
      (some { id := st.nextId, path := p, seedStat := stat,
              seedIsFile := stat.map fun s => s.isFile,
              seedModifiedTime := stat.map fun s => s.mtime }) := by
    unfold CacheState.addedBase
    cases hl : lookupA st.files p with
    | none => rfl
    | some o =>
      cases o with
      | none => rfl
      | some r => exact absurd hl (hr r)
  rw [hf2, hbase, lookupA_setA_self]

/-- Claim C6, amended: `onFileChanged` and `onFileRemoved` always replace the
path's record with a freshly allocated one (distinct from any record stored
before the call); `onFileAdded` creates a fresh record only when the path has
no current record (never observed, or tombstoned) and otherwise leaves the
stored record exactly as it was. -/
theorem handlers_replace_record :
    (∀ (st : CacheState) (p : String) (stat : Option StatInfo) (st' : CacheState),
      st.handleFileChanged p stat = some st' →
      ∃ r, lookupA st'.files p = some (some r) ∧ r.id = st.nextId
        ∧ ∀ r0, lookupA st.files p = some (some r0) → st.idsBelow = true → r0.id ≠ r.id)
    ∧ (∀ (st : CacheState) (p : String) (st' : CacheState),
      st.handleFileRemoved p = some st' →
      ∃ r, lookupA st'.files p = some (some r) ∧ r.id = st.nextId ∧ r.seedIsFile = some false
        ∧ ∀ r0, lookupA st.files p = some (some r0) → st.idsBelow = true → r0.id ≠ r.id)
    ∧ (∀ (st : CacheState) (p : String) (stat : Option StatInfo) (st' : CacheState)
        (r0 : FileRecord), lookupA st.files p = some (some r0) →
      st.handleFileAdded p stat = some st' → lookupA st'.files p = some (some r0))
    ∧ (∀ (st : CacheState) (p : String) (stat : Option StatInfo) (st' : CacheState),
      (∀ r0, lookupA st.files p ≠ some (some r0)) →
      st.handleFileAdded p stat = some st' →
      ∃ r, lookupA st'.files p = some (some r) ∧ r.id = st.nextId) := by
  refine ⟨?_, ?_, handleFileAdded_files_existing, ?_⟩
  · intro st p stat st' hs
    refine ⟨_, handleFileChanged_files st p stat st' hs, rfl, ?_⟩
    intro r0 h0 hids
    exact Nat.ne_of_lt (idsBelow_lookup st p r0 hids h0)
  · intro st p st' hs
    refine ⟨_, handleFileRemoved_files st p st' hs, rfl, rfl, ?_⟩
    intro r0 h0 hids
    exact Nat.ne_of_lt (idsBelow_lookup st p r0 hids h0)
  · intro st p stat st' hr hs
    exact ⟨_, handleFileAdded_files_fresh st p stat st' hr hs, rfl⟩

/-- The state after `fileChanged("a")` (or a fresh `fileAdded("a")`) on the
empty cache. -/
def emptyChangedAfter : CacheState :=
  { files := [("a", some { id := 0, path := "a", seedStat := none, seedIsFile := none,
                           seedModifiedTime := none })],
    trapsByFile := [], traps := [], nextId := 1, emitted := [] }

/-- The state after `fileRemoved("a")` on the empty cache. -/
def emptyRemovedAfter : CacheState :=
  { files := [("a", some { id := 0, path := "a", seedStat := none, seedIsFile := some false,
                           seedModifiedTime := none })],
    trapsByFile := [], traps := [], nextId := 1, emitted := [] }

/-- Witness for `handlers_replace_record`. -/
theorem handlers_replace_record_witness :
    (∃ r, lookupA emptyChangedAfter.files "a" = some (some r) ∧ r.id = emptyCache.nextId
      ∧ ∀ r0, lookupA emptyCache.files "a" = some (some r0) → emptyCache.idsBelow = true →
          r0.id ≠ r.id)
    ∧ (∃ r, lookupA emptyRemovedAfter.files "a" = some (some r) ∧ r.id = emptyCache.nextId
      ∧ r.seedIsFile = some false
      ∧ ∀ r0, lookupA emptyCache.files "a" = some (some r0) → emptyCache.idsBelow = true →
          r0.id ≠ r.id)
    ∧ lookupA existingRecordState.files "a" =
        some (some { id := 0, path := "a", seedStat := none, seedIsFile := none,
                     seedModifiedTime := none })
    ∧ (∃ r, lookupA emptyChangedAfter.files "a" = some (some r) ∧ r.id = emptyCache.nextId) :=
  ⟨handlers_replace_record.1 emptyCache "a" none emptyChangedAfter (by decide),
   handlers_replace_record.2.1 emptyCache "a" emptyRemovedAfter (by decide),
   handlers_replace_record.2.2.1 existingRecordState "a" none existingRecordState
     { id := 0, path := "a", seedStat := none, seedIsFile := none, seedModifiedTime := none }
     (by decide) (by decide),
   handlers_replace_record.2.2.2 emptyCache "a" none emptyChangedAfter
     (fun r0 h => Option.noConfusion h) (by decide)⟩

/-- Claim C7: once a record for `p` is replaced by `onFileChanged` or
`onFileRemoved`, a query that had captured the prior record is blocked at
completion: its promise neither resolves with the I/O's value nor rejects
with its error. -/
theorem staleness_barrier (st : CacheState) (p : String) (stat : Option StatInfo)
    (file : FileRecord) {α : Type} (out : Outcome α)
    (hids : st.idsBelow = true) (hpath : file.path = p)
    (hcur : lookupA st.files p = some (some file)) :
    (∀ st', st.handleFileChanged p stat = some st' →
      st'.evaluateFileMethodFinish file out = QueryOutcome.blocked)
    ∧ (∀ st', st.handleFileRemoved p = some st' →
      st'.evaluateFileMethodFinish file out = QueryOutcome.blocked) := by
  have hlt : file.id < st.nextId := idsBelow_lookup st p file hids hcur
  have hne : st.nextId ≠ file.id := Nat.ne_of_gt hlt
  constructor
  · intro st' hs
    have hl := handleFileChanged_files st p stat st' hs
    have hblock : st'.blockStaleFilesFromResolving file = true := by
      unfold CacheState.blockStaleFilesFromResolving
      rw [hpath, hl]
      show (st.nextId != file.id) = true
      exact bne_iff_ne.mpr hne
    cases out with
    | ok a => simp [CacheState.evaluateFileMethodFinish, hblock]
    | ioError e => simp [CacheState.evaluateFileMethodFinish, hblock]
  · intro st' hs
    have hl := handleFileRemoved_files st p st' hs
    have hblock : st'.blockStaleFilesFromResolving file = true := by
      unfold CacheState.blockStaleFilesFromResolving
      rw [hpath, hl]
      show (st.nextId != file.id) = true
      exact bne_iff_ne.mpr hne
    cases out with
    | ok a => simp [CacheState.evaluateFileMethodFinish, hblock]
    | ioError e => simp [CacheState.evaluateFileMethodFinish, hblock]

/-- The state after `fileChanged("a")` on `existingRecordState`. -/
def staleChangedAfter : CacheState :=
  { files := [("a", some { id := 1, path := "a", seedStat := none, seedIsFile := none,
                           seedModifiedTime := none })],
    trapsByFile := [], traps := [], nextId := 2, emitted := [] }

/-- The state after `fileRemoved("a")` on `existingRecordState`. -/
def staleRemovedAfter : CacheState :=
  { files := [("a", some { id := 1, path := "a", seedStat := none, seedIsFile := some false,
                           seedModifiedTime := none })],
    trapsByFile := [], traps := [], nextId := 2, emitted := [] }

/-- Witness for `staleness_barrier`: on a cache holding record 0 for `"a"`, a
query that captured record 0 is blocked after either replacement. -/
theorem staleness_barrier_witness :
    staleChangedAfter.evaluateFileMethodFinish
      { id := 0, path := "a", seedStat := none, seedIsFile := none, seedModifiedTime := none }
      (Outcome.ok true) = QueryOutcome.blocked
    ∧ staleRemovedAfter.evaluateFileMethodFinish
      { id := 0, path := "a", seedStat := none, seedIsFile := none, seedModifiedTime := none }
      ((Outcome.ioError "ENOENT" : Outcome Bool)) = QueryOutcome.blocked :=
  ⟨(staleness_barrier existingRecordState "a" none
      { id := 0, path := "a", seedStat := none, seedIsFile := none, seedModifiedTime := none }
      (Outcome.ok true) (by decide) (by decide) (by decide)).1 staleChangedAfter (by decide),
   (staleness_barrier existingRecordState "a" none
      { id := 0, path := "a", seedStat := none, seedIsFile := none, seedModifiedTime := none }
      ((Outcome.ioError "ENOENT" : Outcome Bool)) (by decide) (by decide) (by decide)).2 staleRemovedAfter
      (by decide)⟩

/-! ## Binding recording -/

theorem updateTrap_trap (st : CacheState) (tid : Nat) (g : FileSystemTrap → FileSystemTrap) :
    (st.updateTrap tid g).trap tid = g (st.trap tid) := by
  unfold CacheState.updateTrap CacheState.trap
  rw [lookupA_setA_self]
  rfl

theorem ensure_bindings (st : CacheState) (tid : Nat) (p : String) :
    ((st.ensureBindingToFile tid p).trap tid).bindings = (st.trap tid).bindings := by
  unfold CacheState.ensureBindingToFile
  by_cases hc : (st.trap tid).boundFiles.contains p = true
  · rw [if_pos hc]
  · rw [if_neg hc]
    have h1 : ((st.updateTrap tid fun t => { t with boundFiles := t.boundFiles ++ [p] }).bindTrapToFile
        tid p).trap tid =
        (st.updateTrap tid fun t => { t with boundFiles := t.boundFiles ++ [p] }).trap tid := rfl
    rw [h1, updateTrap_trap]

theorem modifyBindings_binding (st : CacheState) (tid : Nat) (p : String)
    (f : TrapBindings → TrapBindings) :
    lookupA ((st.modifyBindings tid p f).trap tid).bindings p =
      some (f ((lookupA (st.trap tid).bindings p).getD TrapBindings.empty)) := by
  unfold CacheState.modifyBindings
  cases hb : lookupA (st.trap tid).bindings p with
  | some b =>
    rw [updateTrap_trap, lookupA_setA_self, hb]
  | none =>
    rw [updateTrap_trap]
    have hsb : (((st.updateTrap tid fun t =>
        { t with bindings := setA t.bindings p TrapBindings.empty }).ensureBindingToFile
          tid p).trap tid).bindings = setA (st.trap tid).bindings p TrapBindings.empty := by
      rw [ensure_bindings, updateTrap_trap]
    rw [hsb, lookupA_setA_self, lookupA_setA_self]
    rfl

/-- Claim C1, amended: recording is first-write-wins for `isFile` under
`isFile` queries, for `modifiedTime` under `stat` queries, and for `textHash`
under `readTextHash` queries; but a successfully resolved `stat` or
`readModifiedTime` sets the binding's `isFile` to `true` unconditionally, and
a resolved `readModifiedTime` (also reached through `readBuffer`, `readText`
and `readTextHash`) sets `modifiedTime` unconditionally, overwriting any
previously recorded values of those fields. -/
theorem binding_first_write_rules :
    (∀ (st : CacheState) (tid : Nat) (p : String) (file : FileRecord) (out : Outcome Bool)
        (v0 : Bool), st.bindingIsFile tid p = some v0 →
      ((st.trapIsFileFinish tid p file out).1).bindingIsFile tid p = some v0)
    ∧ (∀ (st : CacheState) (tid : Nat) (p : String) (file : FileRecord)
        (out : Outcome StatInfo) (m0 : Int), st.bindingModifiedTime tid p = some m0 →
      ((st.trapStatFinish tid p file out).1).bindingModifiedTime tid p = some m0)
    ∧ (∀ (st : CacheState) (tid : Nat) (p : String) (h : String) (h0 : String),
        st.bindingTextHash tid p = some h0 →
      (st.trapReadTextHashRecord tid p h).bindingTextHash tid p = some h0)
    ∧ (∀ (st : CacheState) (tid : Nat) (p : String) (file : FileRecord)
        (out : Outcome StatInfo) (s : StatInfo),
        st.evaluateFileMethodFinish file out = QueryOutcome.resolved s →
      ((st.trapStatFinish tid p file out).1).bindingIsFile tid p = some true)
    ∧ (∀ (st : CacheState) (tid : Nat) (p : String) (file : FileRecord)
        (out : Outcome Int) (mt : Int),
        st.evaluateFileMethodFinish file out = QueryOutcome.resolved mt →
      ((st.trapReadModifiedTimeFinish tid p file out).1).bindingIsFile tid p = some true
      ∧ ((st.trapReadModifiedTimeFinish tid p file out).1).bindingModifiedTime tid p = some mt) := by
  refine ⟨?_, ?_, ?_, ?_, ?_⟩
  · intro st tid p file out v0 hyp
    unfold CacheState.trapIsFileFinish
    cases hq : st.evaluateFileMethodFinish file out with
    | resolved v =>
      unfold CacheState.bindingIsFile at hyp ⊢
      cases hlb : lookupA (st.trap tid).bindings p with
      | none => rw [hlb] at hyp; exact absurd hyp (by simp)
      | some b0 =>
        rw [hlb] at hyp
        simp only [Option.bind_eq_bind, Option.some_bind] at hyp
        have hmb := modifyBindings_binding st tid p
          fun b => if b.isFile = none then { b with isFile := some v } else b
        rw [hlb] at hmb
        simp only [Option.getD_some] at hmb
        rw [hmb]
        have hne : ¬ (b0.isFile = none) := by rw [hyp]; exact fun h => Option.noConfusion h
        simp [hne, hyp]
    | rejected e => exact hyp
    | blocked => exact hyp
  · intro st tid p file out m0 hyp
    unfold CacheState.trapStatFinish
    cases hq : st.evaluateFileMethodFinish file out with
    | resolved s =>
      unfold CacheState.bindingModifiedTime at hyp ⊢
      cases hlb : lookupA (st.trap tid).bindings p with
      | none => rw [hlb] at hyp; exact absurd hyp (by simp)
      | some b0 =>
        rw [hlb] at hyp
        simp only [Option.bind_eq_bind, Option.some_bind] at hyp
        have hmb := modifyBindings_binding st tid p fun b =>
          let b1 := { b with isFile := some true }
          if b1.modifiedTime = none then { b1 with modifiedTime := some s.mtime } else b1
        rw [hlb] at hmb
        simp only [Option.getD_some] at hmb
        rw [hmb]
        have hne : ¬ (b0.modifiedTime = none) := by rw [hyp]; exact fun h => Option.noConfusion h
        simp [hne, hyp]
    | rejected e => exact hyp
    | blocked => exact hyp
  · intro st tid p h h0 hyp
    unfold CacheState.trapReadTextHashRecord
    unfold CacheState.bindingTextHash at hyp ⊢
    cases hlb : lookupA (st.trap tid).bindings p with
    | none => rw [hlb] at hyp; exact absurd hyp (by simp)
    | some b0 =>
      rw [hlb] at hyp
      simp only [Option.bind_eq_bind, Option.some_bind] at hyp
      have hmb := modifyBindings_binding st tid p fun b =>
        if b.textHash = none then { b with textHash := some h } else b
      rw [hlb] at hmb
      simp only [Option.getD_some] at hmb
      rw [hmb]
      have hne : ¬ (b0.textHash = none) := by rw [hyp]; exact fun hx => Option.noConfusion hx
      simp [hne, hyp]
  · intro st tid p file out s hq
    unfold CacheState.trapStatFinish
    rw [hq]
    unfold CacheState.bindingIsFile
    have hmb := modifyBindings_binding st tid p fun b =>
      let b1 := { b with isFile := some true }
      if b1.modifiedTime = none then { b1 with modifiedTime := some s.mtime } else b1
    rw [hmb]
    by_cases hmt : ((lookupA (st.trap tid).bindings p).getD TrapBindings.empty).modifiedTime = none
    · simp [hmt]
    · simp [hmt]
  · intro st tid p file out mt hq
    unfold CacheState.trapReadModifiedTimeFinish
    rw [hq]
    constructor
    · unfold CacheState.bindingIsFile
      have hmb := modifyBindings_binding st tid p fun b =>
        { b with isFile := some true, modifiedTime := some mt }
      rw [hmb]
      rfl
    · unfold CacheState.bindingModifiedTime
      have hmb := modifyBindings_binding st tid p fun b =>
        { b with isFile := some true, modifiedTime := some mt }
      rw [hmb]
      rfl

/-- A one-trap cache whose trap has already recorded all three fields for
`"a"`, with the record it queries still current. -/
def recordedState : CacheState :=
  { files := [("a", some { id := 0, path := "a", seedStat := none, seedIsFile := none,
                           seedModifiedTime := none })],
    trapsByFile := [("a", [0])],
    traps := [(0, { bindings := [("a", { isFile := some false, modifiedTime := some 3,
                                         textHash := some "h" })],
                    boundFiles := ["a"], triggerOnChange := ["a"] })],
    nextId := 1, emitted := [] }

def recordedStateFile : FileRecord :=
  { id := 0, path := "a", seedStat := none, seedIsFile := none, seedModifiedTime := none }

/-- Witness for `binding_first_write_rules` on `recordedState`. -/
theorem binding_first_write_rules_witness :
    ((recordedState.trapIsFileFinish 0 "a" recordedStateFile (Outcome.ok true)).1).bindingIsFile
        0 "a" = some false
    ∧ ((recordedState.trapStatFinish 0 "a" recordedStateFile
        (Outcome.ok { isFile := true, mtime := 9 })).1).bindingModifiedTime 0 "a" = some 3
    ∧ (recordedState.trapReadTextHashRecord 0 "a" "zzz").bindingTextHash 0 "a" = some "h"
    ∧ ((recordedState.trapStatFinish 0 "a" recordedStateFile
        (Outcome.ok { isFile := true, mtime := 9 })).1).bindingIsFile 0 "a" = some true
    ∧ (((recordedState.trapReadModifiedTimeFinish 0 "a" recordedStateFile
        (Outcome.ok 42)).1).bindingIsFile 0 "a" = some true
      ∧ ((recordedState.trapReadModifiedTimeFinish 0 "a" recordedStateFile
        (Outcome.ok 42)).1).bindingModifiedTime 0 "a" = some 42) :=
  ⟨binding_first_write_rules.1 recordedState 0 "a" recordedStateFile (Outcome.ok true) false
      (by decide),
   binding_first_write_rules.2.1 recordedState 0 "a" recordedStateFile
      (Outcome.ok { isFile := true, mtime := 9 }) 3 (by decide),
   binding_first_write_rules.2.2.1 recordedState 0 "a" "zzz" "h" (by decide),
   binding_first_write_rules.2.2.2.1 recordedState 0 "a" recordedStateFile
      (Outcome.ok { isFile := true, mtime := 9 }) { isFile := true, mtime := 9 } (by decide),
   binding_first_write_rules.2.2.2.2 recordedState 0 "a" recordedStateFile
      (Outcome.ok 42) 42 (by decide)⟩

/-! ## Detachment scope of `_triggerTraps` -/

theorem detachFold_lookup (tid : Nat) :
    ∀ (bs : List (String × TrapBindings)) (acc acc1 : CacheState),
    bs.foldlM (detachStep tid) acc = some acc1 →
    ∀ q, lookupA acc1.trapsByFile q =
      if q ∈ bs.map Prod.fst
      then (lookupA acc.trapsByFile q).map fun l => l.filter fun x => x != tid
      else lookupA acc.trapsByFile q := by
  intro bs
  induction bs with
  | nil =>
    intro acc acc1 h q
    cases h
    simp
  | cons hd tl ih =>
    intro acc acc1 h q
    rw [List.foldlM_cons] at h
    rcases Option.bind_eq_some.mp h with ⟨mid, hmid, hrest⟩
    unfold detachStep at hmid
    cases hl : lookupA acc.trapsByFile hd.1 with
    | none =>
      rw [hl] at hmid
      exact absurd hmid (by simp)
    | some l0 =>
      rw [hl] at hmid
      have hmid2 : mid =
          { acc with trapsByFile := setA acc.trapsByFile hd.1 (l0.filter fun x => x != tid) } :=
        (Option.some.inj hmid).symm
      subst hmid2
      have hq := ih _ acc1 hrest q
      by_cases hqh : q = hd.1
      · rw [hq]
        have hc2 : q ∈ (hd :: tl).map Prod.fst := by
          rw [List.map_cons, hqh]
          exact List.mem_cons_self _ _
        rw [if_pos hc2]
        by_cases hqt : q ∈ tl.map Prod.fst
        · rw [if_pos hqt]
          show (lookupA (setA acc.trapsByFile hd.1 (l0.filter fun x => x != tid)) q).map
              (fun l => l.filter fun x => x != tid) = _
          rw [hqh, lookupA_setA_self, hl]
          simp [List.filter_filter, Bool.and_self]
        · rw [if_neg hqt]
          show lookupA (setA acc.trapsByFile hd.1 (l0.filter fun x => x != tid)) q = _
          rw [hqh, lookupA_setA_self, hl]
          rfl
      · have hlq : lookupA (setA acc.trapsByFile hd.1 (l0.filter fun x => x != tid)) q =
            lookupA acc.trapsByFile q := lookupA_setA_ne _ _ _ _ hqh
        have hc2iff : q ∈ (hd :: tl).map Prod.fst ↔ q ∈ tl.map Prod.fst := by
          rw [List.map_cons, List.mem_cons]
          exact ⟨fun hh => hh.resolve_left hqh, Or.inr⟩
        rw [hq]
        by_cases hqt : q ∈ tl.map Prod.fst
        · rw [if_pos hqt, if_pos (hc2iff.mpr hqt)]
          show (lookupA (setA acc.trapsByFile hd.1 (l0.filter fun x => x != tid)) q).map _ = _
          rw [hlq]
        · rw [if_neg hqt, if_neg (fun hh => hqt (hc2iff.mp hh))]
          exact hlq

theorem detachTrap_lookup (st st1 : CacheState) (tid : Nat)
    (h : st.detachTrap tid = some st1) (q : String) :
    lookupA st1.trapsByFile q =
      if q ∈ (st.trap tid).bindings.map Prod.fst
      then (lookupA st.trapsByFile q).map fun l => l.filter fun x => x != tid
      else lookupA st.trapsByFile q :=
  detachFold_lookup tid _ st st1 h q

theorem not_mem_filter_ne_self (l : List Nat) (tid : Nat) :
    tid ∉ l.filter fun x => x != tid := by
  intro h
  have h2 := (List.mem_filter.mp h).2
  simp at h2

theorem detachTrap_not_mem (st st1 : CacheState) (tid : Nat)
    (h : st.detachTrap tid = some st1) (q : String)
    (hq : q ∈ (st.trap tid).bindings.map Prod.fst) :
    tid ∉ (lookupA st1.trapsByFile q).getD [] := by
  rw [detachTrap_lookup st st1 tid h q, if_pos hq]
  cases hl : lookupA st.trapsByFile q with
  | none => simp
  | some l0 => exact not_mem_filter_ne_self l0 tid

theorem detachTrap_preserves_not_mem (st st1 : CacheState) (tid x : Nat)
    (h : st.detachTrap tid = some st1) (q : String)
    (hx : x ∉ (lookupA st.trapsByFile q).getD []) :
    x ∉ (lookupA st1.trapsByFile q).getD [] := by
  rw [detachTrap_lookup st st1 tid h q]
  by_cases hq : q ∈ (st.trap tid).bindings.map Prod.fst
  · rw [if_pos hq]
    cases hl : lookupA st.trapsByFile q with
    | none => simp
    | some l0 =>
      rw [hl] at hx
      intro hmem
      exact hx (List.mem_of_mem_filter hmem)
  · rw [if_neg hq]
    exact hx

theorem detachAll_preserves_not_mem :
    ∀ (tids : List Nat) (st st1 : CacheState), st.detachAll tids = some st1 →
    ∀ (x : Nat) (q : String), x ∉ (lookupA st.trapsByFile q).getD [] →
    x ∉ (lookupA st1.trapsByFile q).getD [] := by
  intro tids
  induction tids with
  | nil =>
    intro st st1 h x q hx
    cases h
    exact hx
  | cons hd tl ih =>
    intro st st1 h x q hx
    unfold CacheState.detachAll at h
    rw [List.foldlM_cons] at h
    rcases Option.bind_eq_some.mp h with ⟨mid, hmid, hrest⟩
    exact ih mid st1 hrest x q (detachTrap_preserves_not_mem st mid hd x hmid q hx)

theorem detachAll_not_mem :
    ∀ (tids : List Nat) (st st1 : CacheState), st.detachAll tids = some st1 →
    ∀ tid ∈ tids, ∀ q, q ∈ (st.trap tid).bindings.map Prod.fst →
    tid ∉ (lookupA st1.trapsByFile q).getD [] := by
  intro tids
  induction tids with
  | nil =>
    intro st st1 h tid htid
    simp at htid
  | cons hd tl ih =>
    intro st st1 h tid htid q hq
    unfold CacheState.detachAll at h
    rw [List.foldlM_cons] at h
    rcases Option.bind_eq_some.mp h with ⟨mid, hmid, hrest⟩
    rcases List.mem_cons.mp htid with heq | htl
    · subst heq
      exact detachAll_preserves_not_mem tl mid st1 hrest tid q
        (detachTrap_not_mem st mid tid hmid q hq)
    · have htr : mid.traps = st.traps := (detachTrap_fields hmid).2.1
      refine ih mid st1 hrest tid htl q ?_
      rw [trap_congr htr]
      exact hq

/-- Claim C3, amended: when a batch of traps qualifies for one event, every
trap of the batch is first removed from the reverse-index entry of every path
for which it has **recorded bindings** (not of every bound path: a
registration made by a still in-flight query, with no binding recorded yet,
survives) before any notification is pushed; the notifications are then
pushed in reverse order of the traps' original registration to the path. -/
theorem trigger_detach_then_notify :
    (∀ (st : CacheState) (l : List Nat) (p : String) (c : Cause) (st' : CacheState),
      st.triggerTraps l p c = some st' →
      ∃ st1, st.detachAll l.reverse = some st1
        ∧ st'.trapsByFile = st1.trapsByFile
        ∧ st'.emitted = st.emitted ++ (l.reverse.map fun tid => ⟨tid, p, c⟩)
        ∧ ∀ tid ∈ l, ∀ q, (lookupA (st.trap tid).bindings q).isSome = true →
            tid ∉ (lookupA st1.trapsByFile q).getD [])
    ∧ (∀ (st : CacheState) (p : String) (stat : Option StatInfo) (st' : CacheState),
      st.handleFileChanged p stat = some st' →
      st'.emitted = st.emitted ++
        ((((lookupA st.trapsByFile p).getD []).filter (changedTrapQualifies st p)).reverse.map
          fun tid => ⟨tid, p, Cause.changed⟩)) := by
  constructor
  · intro st l p c st' h
    obtain ⟨st1, hd, htb, hf, ht, hn, he⟩ := triggerTraps_spec h
    refine ⟨st1, hd, htb, he, ?_⟩
    intro tid htid q hq
    have hqm : q ∈ (st.trap tid).bindings.map Prod.fst := by
      by_contra hnm
      rw [← lookupA_eq_none_iff] at hnm
      rw [hnm] at hq
      exact absurd hq (by simp)
    exact detachAll_not_mem l.reverse st st1 hd tid (List.mem_reverse.mpr htid) q hqm
  · intro st p stat st' hs
    unfold CacheState.handleFileChanged at hs
    obtain ⟨st1, hd, htb, hf, ht, hn, he⟩ := triggerTraps_spec hs
    exact he

/-- The result of `triggerTraps` on `presenceObserverState` with batch `[0]`. -/
def triggerOnlyAfter : CacheState :=
  { files := [], trapsByFile := [("a", [])],
    traps := [(0, { bindings := [("a", { isFile := some true, modifiedTime := none,
                                         textHash := none })],
                    boundFiles := ["a"], triggerOnChange := [] })],
    nextId := 0, emitted := [⟨0, "a", Cause.removed⟩] }

/-- Witness for `trigger_detach_then_notify`. -/
theorem trigger_detach_then_notify_witness :
    (∃ st1, presenceObserverState.detachAll [0].reverse = some st1
      ∧ triggerOnlyAfter.trapsByFile = st1.trapsByFile
      ∧ triggerOnlyAfter.emitted = presenceObserverState.emitted ++
          ([0].reverse.map fun tid => ⟨tid, "a", Cause.removed⟩)
      ∧ ∀ tid ∈ [0], ∀ q,
          (lookupA (presenceObserverState.trap tid).bindings q).isSome = true →
          tid ∉ (lookupA st1.trapsByFile q).getD [])
    ∧ changeSensitiveAfter.emitted = changeSensitiveState.emitted ++
        ((((lookupA changeSensitiveState.trapsByFile "a").getD []).filter
          (changedTrapQualifies changeSensitiveState "a")).reverse.map
          fun tid => ⟨tid, "a", Cause.changed⟩) :=
  ⟨trigger_detach_then_notify.1 presenceObserverState [0] "a" Cause.removed triggerOnlyAfter
      (by decide),
   trigger_detach_then_notify.2 changeSensitiveState "a" none changeSensitiveAfter (by decide)⟩
